import Mathlib

/-!
# A verification development of `force_reverify.py`

Shallow embedding of the Discourse auto-deactivation script's resilient
request executor (`_request_with_backoff` together with its helpers
`_compute_backoff`, `_respect_retry_after`, `_sleep_with_jitter`) and of
the final per-user action loop of `main`.

Modelling conventions:
* Python floats (`BASE_BACKOFF`, `MAX_BACKOFF`, waits) are modelled as
  exact rationals `ℚ`; the claims are about the formulas, not about
  floating-point rounding.
* The network is modelled as an oracle `outcomes : ℕ → AttemptOutcome`
  giving, for each attempt index, either a transport exception
  (`requests` `ConnectionError`/`Timeout`) or a response consisting of a
  status code and an optional `Retry-After` header string.
* The `while True` loop is embedded as a fuel-indexed recursion
  `request_with_backoff_aux`; `request_with_backoff` runs it with fuel
  `maxRetries + 1`, and we prove that this fuel always suffices and that
  any larger fuel computes the same result, so the fueled function is
  exactly the unbounded loop.
* `random.uniform(a, b)` is modelled as `a + (b - a) * u` for a unit
  draw `u ∈ [0, 1]`.
-/

namespace ForceReverify

/-- Configuration knobs of the backoff loop: `MAX_RETRIES`,
`BASE_BACKOFF`, `MAX_BACKOFF` (floats modelled as `ℚ`). -/
structure Config where
  maxRetries : ℕ
  baseBackoff : ℚ
  maxBackoff : ℚ
deriving DecidableEq

/-- `_compute_backoff(attempt)`:
`min(MAX_BACKOFF, BASE_BACKOFF * (2 ** attempt))`. -/
def compute_backoff (cfg : Config) (attempt : ℕ) : ℚ :=
  min cfg.maxBackoff (cfg.baseBackoff * 2 ^ attempt)

/-- Digits of a Python integer literal after the sign: a run of ASCII
digits in which an underscore may appear only between two digits.  The
head of the list is already known to be a digit when called from
`pyNat?`. -/
def pyDigits : List Char → ℕ → Option ℕ
  | [], acc => some acc
  | c :: cs, acc =>
    if c.isDigit then pyDigits cs (10 * acc + (c.toNat - 48))
    else if c = '_' then
      match cs with
      | [] => none
      | d :: _ => if d.isDigit then pyDigits cs acc else none
    else none

/-- A nonempty digit run (first character must be a digit). -/
def pyNat? : List Char → Option ℕ
  | [] => none
  | c :: cs => if c.isDigit then pyDigits (c :: cs) 0 else none

/-- Strip leading and trailing whitespace, as Python's `int` does before
parsing. -/
def pyStrip (cs : List Char) : List Char :=
  ((cs.dropWhile Char.isWhitespace).reverse.dropWhile Char.isWhitespace).reverse

/-- Python's `int(s)` on a decimal string: strip surrounding whitespace,
allow one optional sign, then a nonempty digit run (underscores between
digits permitted); anything else raises `ValueError`, modelled as
`none`. -/
def pyInt? (s : String) : Option ℤ :=
  match pyStrip s.toList with
  | '+' :: cs => (pyNat? cs).map (fun n => (n : ℤ))
  | '-' :: cs => (pyNat? cs).map (fun n => -(n : ℤ))
  | cs => (pyNat? cs).map (fun n => (n : ℤ))

/-- `_respect_retry_after(resp)`: `resp.headers.get("Retry-After")` is
`none` when absent; an absent or empty header (both falsy in Python)
yields `None`; otherwise `max(0, int(ra))`, with a `ValueError` from
`int` yielding `None`. -/
def respect_retry_after (ra : Option String) : Option ℤ :=
  match ra with
  | none => none
  | some s =>
    if s = "" then none
    else
      match pyInt? s with
      | none => none
      | some n => some (max 0 n)

/-- The wait chosen in the 429/503 branch (line
`wait = ra if ra is not None else _compute_backoff(attempt)`). -/
def retry_wait (cfg : Config) (attempt : ℕ) (ra : Option String) : ℚ :=
  match respect_retry_after ra with
  | some n => (n : ℚ)
  | none => compute_backoff cfg attempt

/-- `random.uniform(a, b)` for a unit draw `u`. -/
def uniformDraw (a b u : ℚ) : ℚ := a + (b - a) * u

/-- `_sleep_with_jitter(seconds)` sleeps
`random.uniform(0, max(0.0, seconds))`; the value returned here is the
duration actually slept, for unit draw `u`. -/
def sleep_with_jitter (u : ℚ) (seconds : ℚ) : ℚ :=
  uniformDraw 0 (max 0 seconds) u

/-- What one attempt of `S.request` produces: either a transport
exception (`ConnectionError`/`Timeout`) or a response with a status code
and an optional `Retry-After` header. -/
inductive AttemptOutcome where
  | transportError
  | response (status : ℕ) (retryAfter : Option String)
deriving DecidableEq

/-- How one call of `_request_with_backoff` ends.  `attempts` counts the
requests issued; `waits` lists the pre-jitter waits slept between
attempts, in order.  The three failure constructors are the three
`raise` sites: re-raising the transport exception after exhaustion
(line 56), `r.raise_for_status()` after exhaustion in a retryable-status
branch (lines 70 and 78, always raising there since 429/503/5xx lie in
400-599), and `r.raise_for_status()` in the final branch (line 86) when
the status lies in 400-599.  `fuelOut ws` truncates the observation
after the fuel's worth of iterations, carrying the waits `ws` slept so
far: the real loop can genuinely run forever (a status outside 2xx and
400-599 makes line 86 a no-op and the loop re-issues the request), so
truncation is not always avoidable. -/
inductive ExecResult where
  | success (status : ℕ) (attempts : ℕ) (waits : List ℚ)
  | transportExhausted (attempts : ℕ) (waits : List ℚ)
  | statusExhausted (status : ℕ) (attempts : ℕ) (waits : List ℚ)
  | fatalStatus (status : ℕ) (attempts : ℕ) (waits : List ℚ)
  | fuelOut (waits : List ℚ)
deriving DecidableEq

/-- Record one more (pre-jitter) wait, slept before the run that
produced the rest of the result. -/
def ExecResult.consWait (w : ℚ) : ExecResult → ExecResult
  | .success s a ws => .success s a (w :: ws)
  | .transportExhausted a ws => .transportExhausted a (w :: ws)
  | .statusExhausted s a ws => .statusExhausted s a (w :: ws)
  | .fatalStatus s a ws => .fatalStatus s a (w :: ws)
  | .fuelOut ws => .fuelOut (w :: ws)

/-- The pre-jitter wait sequence of a result. -/
def ExecResult.waits : ExecResult → List ℚ
  | .success _ _ ws => ws
  | .transportExhausted _ ws => ws
  | .statusExhausted _ _ ws => ws
  | .fatalStatus _ _ ws => ws
  | .fuelOut ws => ws

/-- The number of requests issued. -/
def ExecResult.attempts : ExecResult → ℕ
  | .success _ a _ => a
  | .transportExhausted a _ => a
  | .statusExhausted _ a _ => a
  | .fatalStatus _ a _ => a
  | .fuelOut _ => 0

/-- Whether the result is the fuel truncation. -/
def ExecResult.isFuelOut : ExecResult → Bool
  | .fuelOut _ => true
  | _ => false

/-- The body of `_request_with_backoff`'s `while True` loop, fueled.
`iter` is the iteration index — the `iter`-th issued request gets
outcome `outcomes iter` — and `attempt` is the loop's counter, which the
code increments only in the three retry branches.  In the final branch
`r.raise_for_status()` raises only for statuses in 400-599; for any
other status (1xx, 3xx such as a 304, ≥ 600) it is a no-op and the
`while True` loop re-issues the request with `attempt` unchanged and no
sleep. -/
def request_with_backoff_aux (cfg : Config) (outcomes : ℕ → AttemptOutcome) :
    ℕ → ℕ → ℕ → ExecResult
  | 0, _, _ => .fuelOut []
  | fuel + 1, iter, attempt =>
    match outcomes iter with
    | .transportError =>
      if cfg.maxRetries ≤ attempt then
        .transportExhausted (iter + 1) []
      else
        (request_with_backoff_aux cfg outcomes fuel (iter + 1) (attempt + 1)).consWait
          (compute_backoff cfg attempt)
    | .response status ra =>
      if 200 ≤ status ∧ status < 300 then
        .success status (iter + 1) []
      else if status = 429 ∨ status = 503 then
        if cfg.maxRetries ≤ attempt then
          .statusExhausted status (iter + 1) []
        else
          (request_with_backoff_aux cfg outcomes fuel (iter + 1) (attempt + 1)).consWait
            (retry_wait cfg attempt ra)
      else if 500 ≤ status ∧ status < 600 then
        if cfg.maxRetries ≤ attempt then
          .statusExhausted status (iter + 1) []
        else
          (request_with_backoff_aux cfg outcomes fuel (iter + 1) (attempt + 1)).consWait
            (compute_backoff cfg attempt)
      else if 400 ≤ status ∧ status < 600 then
        .fatalStatus status (iter + 1) []
      else
        request_with_backoff_aux cfg outcomes fuel (iter + 1) attempt

/-- `_request_with_backoff(method, url)` against the outcome oracle:
the loop starting at `iter = attempt = 0`, observed with fuel
`maxRetries + 1` — proven sufficient and canonical whenever no outcome
falls in the silent re-issue class (see `NoSilentRetry`). -/
def request_with_backoff (cfg : Config) (outcomes : ℕ → AttemptOutcome) : ExecResult :=
  request_with_backoff_aux cfg outcomes (cfg.maxRetries + 1) 0 0

/-- Outcomes on which every loop iteration makes progress: a transport
error (caught and counted), a 2xx (returned), or a status in 400-599
(retried with the attempt counter incremented, or raised by
`raise_for_status`).  Statuses outside these classes — 1xx, 3xx such as
304, or ≥ 600 — make the final `r.raise_for_status()` a no-op, and the
loop silently re-issues the request. -/
def NoSilentRetry : AttemptOutcome → Prop
  | .transportError => True
  | .response s _ => (200 ≤ s ∧ s < 300) ∨ (400 ≤ s ∧ s < 600)

/-- The spec's wording for the 429/503 wait choice (§4.1 step 4):
the server's `Retry-After` value when the header is present and
parseable as a *non-negative* integer, the computed exponential backoff
otherwise.  Written from the spec, to be compared with the source's
`retry_wait`. -/
def spec_retry_wait (cfg : Config) (attempt : ℕ) (ra : Option String) : ℚ :=
  match ra.bind pyInt? with
  | some n => if 0 ≤ n then (n : ℚ) else compute_backoff cfg attempt
  | none => compute_backoff cfg attempt

/-- `DRY_RUN = os.environ.get("DRY_RUN", "true").lower() == "true"`
(lower-casing modelled character-wise on the string's characters). -/
def parseDryRun (envVal : Option String) : Bool :=
  ((envVal.getD "true").toList.map Char.toLower) = "true".toList

/-- An observable step of `main`'s per-user action loop: the dry-run
report line, the deactivation PUT issued by `deactivate_user`, and the
`[OK ]`/`[ERR]` report lines. -/
inductive Effect where
  | printDry (uid : ℕ)
  | putDeactivate (uid : ℕ)
  | printOk (uid : ℕ)
  | printErr (uid : ℕ)
deriving DecidableEq

/-- Whether an effect is the deactivation PUT request. -/
def Effect.isPut : Effect → Bool
  | .putDeactivate _ => true
  | _ => false

/-- A user selected into `to_act`, together with how their
`deactivate_user` call would resolve (`true`: the executor returns a
success; `false`: the executor raises, caught by the loop's
`except`). -/
structure TargetUser where
  uid : ℕ
  deactivateOk : Bool
deriving DecidableEq

/-- The accumulator of `main`'s action loop: the `acted` and `failures`
counters and the effects emitted so far. -/
structure LoopState where
  acted : ℕ
  failures : ℕ
  effects : List Effect
deriving DecidableEq

/-- One iteration of `for u in to_act` (lines 169-182): in dry-run mode
only the `[DRY]` line is printed; otherwise `deactivate_user` issues the
PUT, and either `acted` is incremented on success or the exception is
caught and `failures` is incremented. -/
def actOnUser (dryRun : Bool) (st : LoopState) (u : TargetUser) : LoopState :=
  if dryRun then
    { st with effects := st.effects ++ [.printDry u.uid] }
  else if u.deactivateOk then
    { acted := st.acted + 1, failures := st.failures,
      effects := st.effects ++ [.putDeactivate u.uid, .printOk u.uid] }
  else
    { acted := st.acted, failures := st.failures + 1,
      effects := st.effects ++ [.putDeactivate u.uid, .printErr u.uid] }

/-- `main`'s action loop over the selected users, from zeroed
counters. -/
def mainActLoop (dryRun : Bool) (users : List TargetUser) : LoopState :=
  users.foldl (actOnUser dryRun) ⟨0, 0, []⟩

/-- The process completion status after the loop: `sys.exit(1)` when
`failures` is truthy, the implicit status `0` otherwise
(lines 185-186). -/
def mainExitCode (dryRun : Bool) (users : List TargetUser) : ℕ :=
  if (mainActLoop dryRun users).failures ≠ 0 then 1 else 0

/-! ## Concrete instances used by witnesses and counterexamples -/

/-- `MAX_RETRIES=2, BASE_BACKOFF=1.0, MAX_BACKOFF=10.0`. -/
def cfg2 : Config := ⟨2, 1, 10⟩

/-- `MAX_RETRIES=1, BASE_BACKOFF=1.0, MAX_BACKOFF=60.0`. -/
def cfg1 : Config := ⟨1, 1, 60⟩

/-- `MAX_RETRIES=8, BASE_BACKOFF=1.0, MAX_BACKOFF=60.0`: the script's
default knobs. -/
def cfgDefault : Config := ⟨8, 1, 60⟩

/-- Every attempt returns HTTP 200. -/
def oAll200 : ℕ → AttemptOutcome := fun _ => .response 200 none

/-- The first attempt returns HTTP 404. -/
def o404 : ℕ → AttemptOutcome := fun n =>
  if n = 0 then .response 404 none else .response 200 none

/-- Every attempt returns HTTP 503 with no `Retry-After` header. -/
def oAll503 : ℕ → AttemptOutcome := fun _ => .response 503 none

/-- Every attempt returns HTTP 304 (a redirect not followed) with no
`Retry-After` header. -/
def oAll304 : ℕ → AttemptOutcome := fun _ => .response 304 none

/-- A transport error, then HTTP 200. -/
def oTrans200 : ℕ → AttemptOutcome := fun n =>
  if n = 0 then .transportError else .response 200 none

/-- Every attempt raises a transport error. -/
def oAllTrans : ℕ → AttemptOutcome := fun _ => .transportError

/-- HTTP 429 with `Retry-After: -5`, then HTTP 200. -/
def o429neg : ℕ → AttemptOutcome := fun n =>
  if n = 0 then .response 429 (some "-5") else .response 200 none

/-- HTTP 429 with `Retry-After: 5`, then HTTP 200. -/
def o429five : ℕ → AttemptOutcome := fun n =>
  if n = 0 then .response 429 (some "5") else .response 200 none

/-- HTTP 429 with `Retry-After: 120`, then HTTP 200. -/
def o429big : ℕ → AttemptOutcome := fun n =>
  if n = 0 then .response 429 (some "120") else .response 200 none

/-- Two selected users: the first deactivation succeeds, the second
raises. -/
def usersMixed : List TargetUser := [⟨1, true⟩, ⟨2, false⟩]

/-- Two selected users whose deactivations both succeed. -/
def usersOk : List TargetUser := [⟨1, true⟩, ⟨2, true⟩]

/-! ## Generic facts about the fueled loop -/

theorem ExecResult.isFuelOut_consWait (w : ℚ) (r : ExecResult) :
    (r.consWait w).isFuelOut = r.isFuelOut := by
  cases r <;> rfl

theorem ExecResult.waits_consWait (w : ℚ) (r : ExecResult) :
    (r.consWait w).waits = w :: r.waits := by
  cases r <;> rfl

/-- With positive fuel exceeding the remaining retry budget, and no
outcome in the silent re-issue class, the loop's observation is never
truncated. -/
theorem aux_not_fuelOut (cfg : Config) (o : ℕ → AttemptOutcome)
    (h : ∀ i, NoSilentRetry (o i)) :
    ∀ fuel iter attempt, cfg.maxRetries < attempt + fuel → 0 < fuel →
      (request_with_backoff_aux cfg o fuel iter attempt).isFuelOut = false := by
  intro fuel
  induction fuel with
  | zero => intro iter attempt _ h0; omega
  | succ f ih =>
    intro iter attempt hlt _
    cases ho : o iter with
    | transportError =>
      simp only [request_with_backoff_aux, ho]
      split_ifs with hb
      · rfl
      · exact (ExecResult.isFuelOut_consWait _ _).trans
          (ih (iter + 1) (attempt + 1) (by omega) (by omega))
    | response s ra =>
      have hns := h iter
      rw [ho] at hns
      simp only [NoSilentRetry] at hns
      simp only [request_with_backoff_aux, ho]
      split_ifs with h1 h2 h3 h4 h5 h6 <;>
        first
          | rfl
          | exact (ExecResult.isFuelOut_consWait _ _).trans
              (ih (iter + 1) (attempt + 1) (by omega) (by omega))
          | omega

/-- Any two sufficient fuels compute the same result when no outcome is
in the silent re-issue class: there the fueled recursion is exactly the
`while True` loop. -/
theorem aux_fuel_irrel (cfg : Config) (o : ℕ → AttemptOutcome)
    (h : ∀ i, NoSilentRetry (o i)) :
    ∀ f₁ f₂ iter attempt, cfg.maxRetries < attempt + f₁ → cfg.maxRetries < attempt + f₂ →
      0 < f₁ → 0 < f₂ →
      request_with_backoff_aux cfg o f₁ iter attempt =
        request_with_backoff_aux cfg o f₂ iter attempt := by
  intro f₁
  induction f₁ with
  | zero => intro f₂ iter attempt _ _ h0; omega
  | succ a ih =>
    intro f₂ iter attempt h1 h2 _ hf2
    obtain ⟨b, rfl⟩ : ∃ b, f₂ = b + 1 := ⟨f₂ - 1, by omega⟩
    cases ho : o iter with
    | transportError =>
      simp only [request_with_backoff_aux, ho]
      split_ifs with hb
      · rfl
      · exact congrArg (ExecResult.consWait _)
          (ih b (iter + 1) (attempt + 1) (by omega) (by omega) (by omega) (by omega))
    | response s ra =>
      have hns := h iter
      rw [ho] at hns
      simp only [NoSilentRetry] at hns
      simp only [request_with_backoff_aux, ho]
      split_ifs with hc1 hc2 hc3 hc4 hc5 hc6 <;>
        first
          | rfl
          | exact congrArg (ExecResult.consWait _)
              (ih b (iter + 1) (attempt + 1) (by omega) (by omega) (by omega) (by omega))
          | omega

/-- Persistent 304 responses drive the loop around its silent re-issue
branch forever: every fuel's observation is truncated, with the attempt
counter never advanced and no wait ever slept. -/
theorem aux_all304_diverges (cfg : Config) :
    ∀ fuel iter attempt,
      request_with_backoff_aux cfg oAll304 fuel iter attempt = .fuelOut [] := by
  intro fuel
  induction fuel with
  | zero => intro iter attempt; rfl
  | succ f ih =>
    intro iter attempt
    show request_with_backoff_aux cfg oAll304 f (iter + 1) attempt = .fuelOut []
    exact ih (iter + 1) attempt

/-! ## The claims -/

/-- C1 (amended): provided every outcome is a transport error, a 2xx,
or a status in 400-599 — the classes on which each iteration makes
progress — a single call of `_request_with_backoff` terminates: any
fuel above the retry budget yields the same, non-truncated result, a
returned success or one of the three raised errors, and no outcome is
lost.  For statuses outside those classes (e.g. a persistent 304) the
loop re-issues the request forever, so the restriction is necessary. -/
theorem request_with_backoff_terminates (cfg : Config) (o : ℕ → AttemptOutcome)
    (h : ∀ i, NoSilentRetry (o i)) (fuel : ℕ) (hfuel : cfg.maxRetries < fuel) :
    request_with_backoff_aux cfg o fuel 0 0 = request_with_backoff cfg o ∧
    ((∃ s a ws, request_with_backoff cfg o = .success s a ws) ∨
      (∃ a ws, request_with_backoff cfg o = .transportExhausted a ws) ∨
      (∃ s a ws, request_with_backoff cfg o = .statusExhausted s a ws) ∨
      (∃ s a ws, request_with_backoff cfg o = .fatalStatus s a ws)) := by
  constructor
  · exact aux_fuel_irrel cfg o h fuel (cfg.maxRetries + 1) 0 0 (by omega) (by omega)
      (by omega) (by omega)
  · have hne : (request_with_backoff cfg o).isFuelOut = false :=
      aux_not_fuelOut cfg o h (cfg.maxRetries + 1) 0 0 (by omega) (by omega)
    cases hr : request_with_backoff cfg o with
    | success s a ws => exact Or.inl ⟨s, a, ws, rfl⟩
    | transportExhausted a ws => exact Or.inr (Or.inl ⟨a, ws, rfl⟩)
    | statusExhausted s a ws => exact Or.inr (Or.inr (Or.inl ⟨s, a, ws, rfl⟩))
    | fatalStatus s a ws => exact Or.inr (Or.inr (Or.inr ⟨s, a, ws, rfl⟩))
    | fuelOut ws => rw [hr] at hne; simp [ExecResult.isFuelOut] at hne

/-- C1 witness: with `cfg2`, all-2xx outcomes and fuel `5 > maxRetries
= 2`, the fueled loop agrees with the canonical run, which terminates in
an outcome. -/
theorem request_with_backoff_terminates_witness :
    ((∀ i, NoSilentRetry (oAll200 i)) ∧ cfg2.maxRetries < 5) ∧
    (request_with_backoff_aux cfg2 oAll200 5 0 0 = request_with_backoff cfg2 oAll200 ∧
      ((∃ s a ws, request_with_backoff cfg2 oAll200 = .success s a ws) ∨
        (∃ a ws, request_with_backoff cfg2 oAll200 = .transportExhausted a ws) ∨
        (∃ s a ws, request_with_backoff cfg2 oAll200 = .statusExhausted s a ws) ∨
        (∃ s a ws, request_with_backoff cfg2 oAll200 = .fatalStatus s a ws))) :=
  ⟨⟨fun _ => Or.inl (by decide), by decide⟩,
    request_with_backoff_terminates cfg2 oAll200 (fun _ => Or.inl (by decide)) 5 (by decide)⟩

/-- C1 counterexample: on persistent 304 responses — one fixed outcome
sequence — the call never terminates in a returned response or raised
error: every fuel's observation is truncated. -/
theorem request_terminates_counterexample :
    request_with_backoff cfgDefault oAll304 = .fuelOut [] ∧
    ∀ fuel, request_with_backoff_aux cfgDefault oAll304 fuel 0 0 = .fuelOut [] :=
  ⟨aux_all304_diverges cfgDefault (cfgDefault.maxRetries + 1) 0 0,
    fun fuel => aux_all304_diverges cfgDefault fuel 0 0⟩

/-- C2 (amended): a response whose status is in 400-599 but is not 429,
not 503 and not 5xx — i.e. a 4xx other than 429 — makes the call fail
immediately with the fatal status error carrying that status: exactly
one attempt, no retry, no wait.  A non-2xx status outside 400-599
(e.g. a 304 redirect not followed) instead makes `raise_for_status` a
no-op and the loop silently re-issues the request. -/
theorem fatal_status_one_attempt (cfg : Config) (o : ℕ → AttemptOutcome)
    (s : ℕ) (ra : Option String)
    (h2xx : ¬(200 ≤ s ∧ s < 300)) (h429 : s ≠ 429) (h503 : s ≠ 503)
    (h5xx : ¬(500 ≤ s ∧ s < 600)) (h400 : 400 ≤ s) (h600 : s < 600)
    (h0 : o 0 = .response s ra) :
    request_with_backoff cfg o = .fatalStatus s 1 [] := by
  simp only [request_with_backoff, request_with_backoff_aux, h0]
  rw [if_neg h2xx, if_neg (not_or.mpr ⟨h429, h503⟩), if_neg h5xx, if_pos ⟨h400, h600⟩]

/-- C2 witness: a 404 on the first attempt of `cfg2` fails at once. -/
theorem fatal_status_one_attempt_witness :
    (¬(200 ≤ 404 ∧ 404 < 300) ∧ 404 ≠ 429 ∧ 404 ≠ 503 ∧
      ¬(500 ≤ 404 ∧ 404 < 600) ∧ 400 ≤ 404 ∧ 404 < 600 ∧
      o404 0 = .response 404 none) ∧
    request_with_backoff cfg2 o404 = .fatalStatus 404 1 [] :=
  ⟨⟨by decide, by decide, by decide, by decide, by decide, by decide, rfl⟩,
    fatal_status_one_attempt cfg2 o404 404 none (by decide) (by decide)
      (by decide) (by decide) (by decide) (by decide) rfl⟩

/-- C2 counterexample: a 304 — not 2xx, not 429/503, not 5xx, so inside
the original claim's scope of 'any other non-2xx status, redirects not
followed' — does not fail with the fatal status error after exactly one
attempt: the call does not terminate at all. -/
theorem fatal_status_counterexample :
    (oAll304 0 = .response 304 none ∧ ¬(200 ≤ 304 ∧ 304 < 300) ∧
      (304 : ℕ) ≠ 429 ∧ (304 : ℕ) ≠ 503 ∧ ¬(500 ≤ 304 ∧ 304 < 600)) ∧
    request_with_backoff cfgDefault oAll304 ≠ .fatalStatus 304 1 [] ∧
    ∀ fuel, request_with_backoff_aux cfgDefault oAll304 fuel 0 0 ≠ .fatalStatus 304 1 [] := by
  refine ⟨⟨rfl, by omega, by omega, by omega, by omega⟩, ?_, ?_⟩
  · rw [request_with_backoff, aux_all304_diverges cfgDefault (cfgDefault.maxRetries + 1) 0 0]
    simp
  · intro fuel
    rw [aux_all304_diverges cfgDefault fuel 0 0]
    simp

/-- C3: the computed backoff equals `min(maxBackoff, base * 2^a)`, is
monotonically non-decreasing in the attempt count, and never exceeds
`maxBackoff`. -/
theorem compute_backoff_formula (cfg : Config) (hb : 0 ≤ cfg.baseBackoff) :
    (∀ a, compute_backoff cfg a = min cfg.maxBackoff (cfg.baseBackoff * 2 ^ a)) ∧
    (∀ a b, a ≤ b → compute_backoff cfg a ≤ compute_backoff cfg b) ∧
    (∀ a, compute_backoff cfg a ≤ cfg.maxBackoff) := by
  refine ⟨fun a => rfl, fun a b hab => ?_, fun a => min_le_left _ _⟩
  refine min_le_min le_rfl ?_
  refine mul_le_mul_of_nonneg_left ?_ hb
  exact pow_le_pow_right₀ one_le_two hab

/-- C3 witness: the backoff formula at the concrete `cfg2`. -/
theorem compute_backoff_formula_witness :
    (0 : ℚ) ≤ cfg2.baseBackoff ∧
    ((∀ a, compute_backoff cfg2 a = min cfg2.maxBackoff (cfg2.baseBackoff * 2 ^ a)) ∧
      (∀ a b, a ≤ b → compute_backoff cfg2 a ≤ compute_backoff cfg2 b) ∧
      (∀ a, compute_backoff cfg2 a ≤ cfg2.maxBackoff)) :=
  ⟨by norm_num [cfg2], compute_backoff_formula cfg2 (by norm_num [cfg2])⟩

/-- C7: for every wait `w ≥ 0` and every unit draw `u ∈ [0, 1]`, the
jittered sleep duration lies in `[0, w]`. -/
theorem sleep_with_jitter_bounds (w u : ℚ) (hw : 0 ≤ w) (h0 : 0 ≤ u) (h1 : u ≤ 1) :
    0 ≤ sleep_with_jitter u w ∧ sleep_with_jitter u w ≤ w := by
  unfold sleep_with_jitter uniformDraw
  constructor
  · simpa using mul_nonneg (le_max_left 0 w) h0
  · calc 0 + (max 0 w - 0) * u = max 0 w * u := by ring
      _ ≤ max 0 w * 1 := mul_le_mul_of_nonneg_left h1 (le_max_left 0 w)
      _ = w := by rw [mul_one, max_eq_right hw]

/-- C7 witness: wait `5` with unit draw `1/2` sleeps `5/2 ∈ [0, 5]`. -/
theorem sleep_with_jitter_bounds_witness :
    ((0 : ℚ) ≤ 5 ∧ (0 : ℚ) ≤ 1 / 2 ∧ (1 : ℚ) / 2 ≤ 1) ∧
    (0 ≤ sleep_with_jitter (1 / 2) 5 ∧ sleep_with_jitter (1 / 2) 5 ≤ 5) :=
  ⟨⟨by norm_num, by norm_num, by norm_num⟩,
    sleep_with_jitter_bounds 5 (1 / 2) (by norm_num) (by norm_num) (by norm_num)⟩

/-- C9: after the action loop, the process completion status is `1`
(non-zero) exactly when the failure counter is non-zero, and `0` when it
is zero. -/
theorem exit_code_reflects_failures (dryRun : Bool) (users : List TargetUser) :
    ((mainActLoop dryRun users).failures ≠ 0 → mainExitCode dryRun users = 1) ∧
    ((mainActLoop dryRun users).failures = 0 → mainExitCode dryRun users = 0) := by
  constructor <;> intro h <;> simp [mainExitCode, h]

/-- C9 witness: one failing deactivation out of two makes the process
exit `1`. -/
theorem exit_code_reflects_failures_witness :
    (mainActLoop false usersMixed).failures ≠ 0 ∧ mainExitCode false usersMixed = 1 :=
  ⟨by decide, (exit_code_reflects_failures false usersMixed).1 (by decide)⟩

/-- Under `DRY_RUN` the action loop only prints the `[DRY]` report
lines and leaves both counters untouched, whatever the initial
accumulator. -/
theorem actLoop_dry_effects (users : List TargetUser) :
    ∀ st : LoopState, (users.foldl (actOnUser true) st).effects =
        st.effects ++ users.map (fun u => .printDry u.uid) ∧
      (users.foldl (actOnUser true) st).acted = st.acted ∧
      (users.foldl (actOnUser true) st).failures = st.failures := by
  induction users with
  | nil => intro st; simp
  | cons u us ih =>
    intro st
    simp only [List.foldl_cons, List.map_cons]
    obtain ⟨he, ha, hf⟩ := ih (actOnUser true st u)
    refine ⟨?_, ?_, ?_⟩ <;> simp only [he, ha, hf] <;> simp [actOnUser]

/-- C10: with the `DRY_RUN` flag enabled (which parsing the absent
environment variable yields), the action loop emits exactly the dry-run
report lines — in particular no deactivation PUT is ever issued. -/
theorem dry_run_issues_no_puts (users : List TargetUser) :
    parseDryRun none = true ∧
    (mainActLoop true users).effects = users.map (fun u => .printDry u.uid) ∧
    (mainActLoop true users).effects.all (fun e => !e.isPut) = true := by
  have he := (actLoop_dry_effects users ⟨0, 0, []⟩).1
  refine ⟨rfl, by simpa [mainActLoop] using he, ?_⟩
  rw [List.all_eq_true]
  intro e hmem
  rw [mainActLoop, he] at hmem
  simp only [List.nil_append, List.mem_map] at hmem
  obtain ⟨u, _, rfl⟩ := hmem
  rfl

/-- Peeling the first of `m + 1` consecutive backoff waits starting at
`attempt`. -/
theorem backoff_range_succ (cfg : Config) (attempt m : ℕ) :
    (List.range (m + 1)).map (fun i => compute_backoff cfg (attempt + i)) =
      compute_backoff cfg attempt ::
        (List.range m).map (fun i => compute_backoff cfg (attempt + 1 + i)) := by
  rw [List.range_succ_eq_map, List.map_cons, List.map_map]
  refine congrArg₂ List.cons (by simp) ?_
  refine List.map_congr_left fun i _ => ?_
  simp only [Function.comp_apply]
  congr 1
  omega

/-- `k` transport errors starting at iteration `a` (entered with the
attempt counter also at `a` — they coincide on these paths), then a 2xx
on attempt `a + k`: the loop returns that success after `a + k + 1`
attempts, having waited the exponential backoffs of the failed
attempts. -/
theorem aux_transport_then_success (cfg : Config) (o : ℕ → AttemptOutcome) :
    ∀ k a fuel s ra, a + k ≤ cfg.maxRetries →
      (∀ i, i < k → o (a + i) = .transportError) →
      o (a + k) = .response s ra → 200 ≤ s → s < 300 → k < fuel →
      request_with_backoff_aux cfg o fuel a a =
        .success s (a + k + 1)
          ((List.range k).map (fun i => compute_backoff cfg (a + i))) := by
  intro k
  induction k with
  | zero =>
    intro a fuel s ra _ _ hk h2 h3 hfuel
    obtain ⟨f, rfl⟩ : ∃ f, fuel = f + 1 := ⟨fuel - 1, by omega⟩
    rw [Nat.add_zero] at hk
    simp only [request_with_backoff_aux, hk]
    rw [if_pos ⟨h2, h3⟩]
    simp
  | succ k ih =>
    intro a fuel s ra hbud htrans hk h2 h3 hfuel
    obtain ⟨f, rfl⟩ : ∃ f, fuel = f + 1 := ⟨fuel - 1, by omega⟩
    have h0 : o a = .transportError := by
      simpa using htrans 0 (by omega)
    simp only [request_with_backoff_aux, h0]
    rw [if_neg (by omega)]
    rw [ih (a + 1) f s ra (by omega)
        (fun i hi => by
          have := htrans (i + 1) (by omega)
          rw [show a + 1 + i = a + (i + 1) from by omega]
          exact this)
        (by
          rw [show a + 1 + k = a + (k + 1) from by omega]
          exact hk)
        h2 h3 (by omega)]
    rw [backoff_range_succ]
    simp only [ExecResult.consWait]
    rw [show a + 1 + k + 1 = a + (k + 1) + 1 from by omega]

/-- When every attempt from `a` through `maxRetries` raises a transport
error, the loop (entered at iteration and attempt `a`) re-raises the
final transport exception after `maxRetries + 1` total attempts. -/
theorem aux_all_transport (cfg : Config) (o : ℕ → AttemptOutcome) :
    ∀ fuel a, (∀ i, a ≤ i → i ≤ cfg.maxRetries → o i = .transportError) →
      a ≤ cfg.maxRetries → cfg.maxRetries < a + fuel →
      request_with_backoff_aux cfg o fuel a a =
        .transportExhausted (cfg.maxRetries + 1)
          ((List.range (cfg.maxRetries - a)).map
            (fun i => compute_backoff cfg (a + i))) := by
  intro fuel
  induction fuel with
  | zero => intro a _ h1 h2; omega
  | succ f ih =>
    intro a htrans hle hlt
    have h0 : o a = .transportError := htrans a le_rfl hle
    simp only [request_with_backoff_aux, h0]
    split_ifs with hb
    · have heq : a = cfg.maxRetries := by omega
      subst heq
      simp
    · rw [ih (a + 1) (fun i hi1 hi2 => htrans i (by omega) hi2) (by omega) (by omega)]
      simp only [ExecResult.consWait]
      rw [show cfg.maxRetries - a = (cfg.maxRetries - (a + 1)) + 1 from by omega,
        backoff_range_succ]

/-- C5: `k ≤ maxRetries` transport errors followed by a 2xx yield that
success after exactly `k + 1` attempts; transport errors on all
`maxRetries + 1` attempts propagate the transport failure to the
caller. -/
theorem transport_retry_then_success (cfg : Config) (o : ℕ → AttemptOutcome) :
    (∀ k s ra, k ≤ cfg.maxRetries →
      (∀ i, i < k → o i = .transportError) →
      o k = .response s ra → 200 ≤ s → s < 300 →
      request_with_backoff cfg o =
        .success s (k + 1) ((List.range k).map (compute_backoff cfg))) ∧
    ((∀ i, i ≤ cfg.maxRetries → o i = .transportError) →
      request_with_backoff cfg o =
        .transportExhausted (cfg.maxRetries + 1)
          ((List.range cfg.maxRetries).map (compute_backoff cfg))) := by
  constructor
  · intro k s ra hk htrans hsucc h2 h3
    have := aux_transport_then_success cfg o k 0 (cfg.maxRetries + 1) s ra (by omega)
      (fun i hi => by simpa using htrans i hi) (by simpa using hsucc) h2 h3 (by omega)
    simpa [request_with_backoff] using this
  · intro htrans
    have := aux_all_transport cfg o (cfg.maxRetries + 1) 0 (fun i _ hi => htrans i hi)
      (by omega) (by omega)
    simpa [request_with_backoff] using this

/-- C5 witness: with `cfg2` (`maxRetries = 2`), one transport error then
a 200 returns the success in 2 attempts; and with all attempts failing,
the transport error propagates after 3 attempts. -/
theorem transport_retry_then_success_witness :
    ((1 ≤ cfg2.maxRetries ∧ (∀ i, i < 1 → oTrans200 i = .transportError) ∧
        oTrans200 1 = .response 200 none ∧ 200 ≤ 200 ∧ 200 < 300) ∧
      request_with_backoff cfg2 oTrans200 =
        .success 200 2 ((List.range 1).map (compute_backoff cfg2))) ∧
    ((∀ i, i ≤ cfg2.maxRetries → oAllTrans i = .transportError) ∧
      request_with_backoff cfg2 oAllTrans =
        .transportExhausted 3 ((List.range 2).map (compute_backoff cfg2))) :=
  ⟨⟨⟨by decide, by decide, rfl, by decide, by decide⟩,
      (transport_retry_then_success cfg2 oTrans200).1 1 200 none (by decide)
        (by decide) rfl (by decide) (by decide)⟩,
    ⟨fun _ _ => rfl, (transport_retry_then_success cfg2 oAllTrans).2 fun _ _ => rfl⟩⟩

/-- When every attempt from `a` through `maxRetries` gets a 503, the
loop (entered at iteration and attempt `a`) surfaces the 503 status
error after `maxRetries + 1` total attempts, with one wait per retried
attempt. -/
theorem aux_all_503 (cfg : Config) (o : ℕ → AttemptOutcome) :
    ∀ fuel a,
      (∀ i, a ≤ i → i ≤ cfg.maxRetries → ∃ ra, o i = .response 503 ra) →
      a ≤ cfg.maxRetries → cfg.maxRetries < a + fuel →
      ∃ ws, request_with_backoff_aux cfg o fuel a a =
          .statusExhausted 503 (cfg.maxRetries + 1) ws ∧
        ws.length = cfg.maxRetries - a := by
  intro fuel
  induction fuel with
  | zero => intro a _ h1 h2; omega
  | succ f ih =>
    intro a h503 hle hlt
    obtain ⟨ra, h0⟩ := h503 a le_rfl hle
    simp only [request_with_backoff_aux, h0]
    rw [if_neg (by omega), if_pos (Or.inr trivial)]
    split_ifs with hb
    · have heq : a = cfg.maxRetries := by omega
      subst heq
      exact ⟨[], rfl, by simp⟩
    · obtain ⟨ws, hws, hlen⟩ :=
        ih (a + 1) (fun i hi1 hi2 => h503 i (by omega) hi2) (by omega) (by omega)
      refine ⟨retry_wait cfg a ra :: ws, ?_, ?_⟩
      · rw [hws]; rfl
      · simp only [List.length_cons, hlen]; omega

/-- C4: if the first `maxRetries + 1` attempts all yield 503 responses,
the call surfaces the 503 status error after exactly `maxRetries + 1`
total attempts, having slept `maxRetries` times. -/
theorem all_503_exhausts (cfg : Config) (o : ℕ → AttemptOutcome)
    (h : ∀ i, i ≤ cfg.maxRetries → ∃ ra, o i = .response 503 ra) :
    ∃ ws, request_with_backoff cfg o = .statusExhausted 503 (cfg.maxRetries + 1) ws ∧
      ws.length = cfg.maxRetries := by
  have := aux_all_503 cfg o (cfg.maxRetries + 1) 0 (fun i _ hi => h i hi) (by omega) (by omega)
  simpa [request_with_backoff] using this

/-- C4 witness: three 503s against `cfg2` (`maxRetries = 2`) surface the
503 error after 3 attempts. -/
theorem all_503_exhausts_witness :
    (∀ i, i ≤ cfg2.maxRetries → ∃ ra, oAll503 i = .response 503 ra) ∧
    ∃ ws, request_with_backoff cfg2 oAll503 = .statusExhausted 503 3 ws ∧
      ws.length = 2 :=
  ⟨fun _ _ => ⟨none, rfl⟩, all_503_exhausts cfg2 oAll503 fun _ _ => ⟨none, rfl⟩⟩

/-- A 429 or 503 at any reached iteration, with retry budget remaining,
makes the wait recorded for it the one computed on line 68:
`ra if ra is not None else _compute_backoff(attempt)`. -/
theorem aux_first_wait_429_503 (cfg : Config) (o : ℕ → AttemptOutcome)
    (fuel iter attempt : ℕ) (s : ℕ) (ra : Option String)
    (hs : s = 429 ∨ s = 503) (ho : o iter = .response s ra)
    (hbudget : attempt < cfg.maxRetries) :
    ∃ rest, (request_with_backoff_aux cfg o (fuel + 1) iter attempt).waits =
      retry_wait cfg attempt ra :: rest := by
  have hstat : ¬(200 ≤ s ∧ s < 300) := by rcases hs with rfl | rfl <;> omega
  simp only [request_with_backoff_aux, ho]
  rw [if_neg hstat, if_pos hs, if_neg (by omega), ExecResult.waits_consWait]
  exact ⟨_, rfl⟩

/-- Specialisation of `aux_first_wait_429_503` to the first attempt of
the canonical run. -/
theorem first_wait_of_429_503 (cfg : Config) (o : ℕ → AttemptOutcome)
    (s : ℕ) (ra : Option String) (hs : s = 429 ∨ s = 503)
    (h0 : o 0 = .response s ra) (hmr : 0 < cfg.maxRetries) :
    ∃ rest, (request_with_backoff cfg o).waits = retry_wait cfg 0 ra :: rest :=
  aux_first_wait_429_503 cfg o cfg.maxRetries 0 0 s ra hs h0 hmr

/-- C6 (amended): for every 429/503 response the loop reaches with
retry budget remaining — at any iteration and attempt count — the
pre-jitter wait recorded before the next attempt is `max(0, v)` whenever
the `Retry-After` header is present, non-empty and parseable as an
integer `v` (a negative `v` is clamped to a zero wait rather than
falling back), and it is the computed exponential backoff of the current
attempt count otherwise. -/
theorem retry_after_wait_clamped (cfg : Config) (o : ℕ → AttemptOutcome)
    (fuel iter attempt : ℕ) (s : ℕ) (ra : Option String)
    (hs : s = 429 ∨ s = 503) (ho : o iter = .response s ra)
    (hbudget : attempt < cfg.maxRetries) :
    (∀ v n, ra = some v → v ≠ "" → pyInt? v = some n →
      ∃ rest, (request_with_backoff_aux cfg o (fuel + 1) iter attempt).waits =
        ((max 0 n : ℤ) : ℚ) :: rest) ∧
    (respect_retry_after ra = none →
      ∃ rest, (request_with_backoff_aux cfg o (fuel + 1) iter attempt).waits =
        compute_backoff cfg attempt :: rest) := by
  obtain ⟨rest, hrest⟩ := aux_first_wait_429_503 cfg o fuel iter attempt s ra hs ho hbudget
  constructor
  · intro v n hv hne hparse
    refine ⟨rest, ?_⟩
    rw [hrest]
    congr 1
    simp [retry_wait, respect_retry_after, hv, hne, hparse]
  · intro hnone
    refine ⟨rest, ?_⟩
    rw [hrest]
    congr 1
    simp [retry_wait, hnone]

/-- C6 (amended) witness: a 429 carrying `Retry-After: 5` on the first
attempt makes that wait exactly `5`; and a 503 without the header
reached at attempt count 1 makes it the exponential backoff
`compute_backoff 1`. -/
theorem retry_after_wait_clamped_witness :
    (o429five 0 = .response 429 (some "5") ∧ 0 < cfgDefault.maxRetries ∧
      some "5" = some "5" ∧ "5" ≠ "" ∧ pyInt? "5" = some 5 ∧
      ∃ rest,
        (request_with_backoff_aux cfgDefault o429five (cfgDefault.maxRetries + 1) 0 0).waits =
          ((max 0 (5 : ℤ) : ℤ) : ℚ) :: rest) ∧
    (oAll503 1 = .response 503 none ∧ 1 < cfg2.maxRetries ∧
      respect_retry_after none = none ∧
      ∃ rest, (request_with_backoff_aux cfg2 oAll503 (2 + 1) 1 1).waits =
        compute_backoff cfg2 1 :: rest) :=
  ⟨⟨rfl, by decide, rfl, by decide, rfl,
      (retry_after_wait_clamped cfgDefault o429five cfgDefault.maxRetries 0 0 429 (some "5")
          (Or.inl rfl) rfl (by decide)).1 "5" 5 rfl (by decide) rfl⟩,
    ⟨rfl, by decide, rfl,
      (retry_after_wait_clamped cfg2 oAll503 2 1 1 503 none
          (Or.inr rfl) rfl (by decide)).2 rfl⟩⟩

/-- C6 counterexample: `Retry-After: -5` on a 429 is present but not
parseable as a *non-negative* integer, so the claim requires the
computed backoff `1` as the wait; the code instead waits the clamped
header value `0`. -/
theorem retry_after_negative_counterexample :
    (request_with_backoff cfgDefault o429neg).waits.head? = some 0 ∧
    spec_retry_wait cfgDefault 0 (some "-5") = 1 ∧
    (request_with_backoff cfgDefault o429neg).waits.head? ≠
      some (spec_retry_wait cfgDefault 0 (some "-5")) := by
  obtain ⟨rest, hrest⟩ := first_wait_of_429_503 cfgDefault o429neg 429 (some "-5")
    (Or.inl rfl) rfl (by norm_num [cfgDefault])
  have hw : retry_wait cfgDefault 0 (some "-5") = 0 := rfl
  have hspec : spec_retry_wait cfgDefault 0 (some "-5") = 1 := by
    show (if (0 : ℤ) ≤ -5 then ((-5 : ℤ) : ℚ) else compute_backoff cfgDefault 0) = 1
    rw [if_neg (by norm_num)]
    norm_num [compute_backoff, cfgDefault]
  refine ⟨?_, hspec, ?_⟩
  · rw [hrest, hw]; rfl
  · rw [hrest, hw, hspec]
    simp only [List.head?_cons, ne_eq, Option.some.injEq]
    norm_num

/-- C8: the wait taken from a server `Retry-After` hint is not clamped
by `maxBackoffSeconds`: with `maxBackoff = 60`, a 429 carrying
`Retry-After: 120` and retry budget remaining makes the pre-jitter wait
the full `120`, which exceeds the cap. -/
theorem retry_after_exceeds_cap :
    respect_retry_after (some "120") = some 120 ∧
    cfg1.maxBackoff < 120 ∧
    (request_with_backoff cfg1 o429big).waits.head? = some 120 := by
  obtain ⟨rest, hrest⟩ := first_wait_of_429_503 cfg1 o429big 429 (some "120")
    (Or.inl rfl) rfl (by norm_num [cfg1])
  refine ⟨rfl, by norm_num [cfg1], ?_⟩
  rw [hrest]
  have hw : retry_wait cfg1 0 (some "120") = 120 := rfl
  rw [hw, List.head?_cons]

end ForceReverify
